import Mathlib

/-!
Verification of the CloudFormation-to-Terraform/CDKTF mapping engine of
`convert-cloudformation-cdktf`.

The development shallowly embeds the engine's two semantic components:

* `ResourceMapper` (src/mapper/index.ts): template-to-config mapping, intrinsic
  resolution (`Ref`, `Fn::GetAtt`), identifier sanitization and key casing.
* `CdktfGenerator.terraformTypeToTypeScript` (src/generator/index.ts):
  the recursive scalar/collection type translation.

JavaScript strings are modelled as `List Char` (Unicode scalar values).
JavaScript objects are modelled as insertion-ordered association lists
(`CfnObject`); the entries are listed in the order `Object.entries` yields
them, and keys of a parsed JSON/YAML object are pairwise distinct.
Property assignment `o[k] = v` is modelled by `insertJs` (overwrite in place
for an existing key, append otherwise), exactly JavaScript's behaviour.
Code that can throw a `TypeError` (destructuring a non-iterable
`Fn::GetAtt` argument, calling a string method on a non-string) is modelled
with `Option`, `none` standing for the thrown exception; `console.warn`
diagnostics are modelled as an explicit list of emitted warning strings.
-/

/-- JavaScript strings, as lists of Unicode scalar values. -/
abbrev Str := List Char

/-- Membership in the character class `[a-zA-Z0-9_]` of the sanitization
regex (codes are ASCII: a-z 97..122, A-Z 65..90, 0-9 48..57, _ 95). -/
def isAllowedNameChar (c : Char) : Bool :=
  (97 ≤ c.toNat && c.toNat ≤ 122) || (65 ≤ c.toNat && c.toNat ≤ 90) ||
    (48 ≤ c.toNat && c.toNat ≤ 57) || c.toNat = 95

/-- One step of `name.replace(/[^a-zA-Z0-9_]/g, '_')`: a character outside
`[a-zA-Z0-9_]` is replaced by `'_'`. -/
def sanitizeChar (c : Char) : Char :=
  if isAllowedNameChar c then c else '_'

namespace ResourceMapper

/-- `sanitizeResourceName` (src/mapper/index.ts):
`name.replace(/[^a-zA-Z0-9_]/g, '_').toLowerCase()`.
After the replacement every character is ASCII, so the JavaScript
`toLowerCase()` coincides with per-character ASCII lowering `Char.toLower`
on the replaced string; the model is exact for every input string. -/
def sanitizeResourceName (name : Str) : Str :=
  (name.map sanitizeChar).map Char.toLower

/-- One step of `str.replace(/([A-Z])/g, '_$1')`: an ASCII capital gets an
underscore inserted in front of it (the capital itself is kept). -/
def expandUpper (c : Char) : Str :=
  if 65 ≤ c.toNat ∧ c.toNat ≤ 90 then ['_', c] else [c]

/-- `camelToSnakeCase` (src/mapper/index.ts):
`str.replace(/([A-Z])/g, '_$1').toLowerCase()`.
The trailing `toLowerCase()` is modelled with ASCII `Char.toLower`; the
JavaScript Unicode lowercasing differs only on non-ASCII letters, which no
claim, example, or counterexample below involves. -/
def camelToSnakeCase (str : Str) : Str :=
  ((str.map expandUpper).flatten).map Char.toLower

end ResourceMapper

/-! ## The CloudFormation/JSON value model -/

mutual
/-- A parsed JSON/YAML value: the `ValueTree` the mapper walks. -/
inductive CfnValue where
  | str (s : Str)
  | num (n : Int)
  | boolean (b : Bool)
  | null
  | arr (items : CfnArray)
  | obj (entries : CfnObject)
/-- A JSON array, as a cons list of values. -/
inductive CfnArray where
  | nil
  | cons (head : CfnValue) (tail : CfnArray)
/-- A JSON object, as an insertion-ordered list of key/value entries. -/
inductive CfnObject where
  | nil
  | cons (key : Str) (value : CfnValue) (tail : CfnObject)
end

/-- Builds a `CfnArray` from a Lean list. -/
def CfnArray.ofList : List CfnValue → CfnArray
  | [] => .nil
  | v :: rest => .cons v (CfnArray.ofList rest)

/-- Number of elements of an array. -/
def arrLength : CfnArray → Nat
  | .nil => 0
  | .cons _ rest => arrLength rest + 1

/-- Number of entries of an object. -/
def objLength : CfnObject → Nat
  | .nil => 0
  | .cons _ _ rest => objLength rest + 1

/-- The keys of an object, in entry order. -/
def objKeys : CfnObject → List Str
  | .nil => []
  | .cons k _ rest => k :: objKeys rest

/-- The JavaScript `key in obj` test. -/
def hasKey : CfnObject → Str → Bool
  | .nil, _ => false
  | .cons k _ rest, key => if k = key then true else hasKey rest key

/-- The JavaScript property read `obj[key]` (first matching entry; the keys
of a parsed object are distinct). `none` models `undefined`. -/
def lookupObj : CfnObject → Str → Option CfnValue
  | .nil, _ => none
  | .cons k v rest, key => if k = key then some v else lookupObj rest key

/-- The JavaScript property write `obj[key] = v`: an existing key keeps its
position and gets the new value, a fresh key is appended at the end. -/
def insertJs : CfnObject → Str → CfnValue → CfnObject
  | .nil, k, v => .cons k v .nil
  | .cons k' v' rest, k, v =>
      if k' = k then .cons k' v rest else .cons k' v' (insertJs rest k v)

/-- Concatenation of two objects (used to state lemmas about `insertJs`). -/
def objAppend : CfnObject → CfnObject → CfnObject
  | .nil, o => o
  | .cons k v rest, o => .cons k v (objAppend rest o)

/-- `arr[i]` on an array; `none` models `undefined`. -/
def arrGet : CfnArray → Nat → Option CfnValue
  | .nil, _ => none
  | .cons v _, 0 => some v
  | .cons _ rest, n + 1 => arrGet rest n

mutual
/-- JavaScript stringification of a value, as performed by a template
literal or `String(...)`: strings stay, numbers print in decimal, booleans
print `true`/`false`, `null` prints `null`, arrays join their stringified
elements with `,`, plain objects print `[object Object]`. -/
def jsStringOf : CfnValue → Str
  | .str s => s
  | .num n => (toString n).toList
  | .boolean b => if b then "true".toList else "false".toList
  | .null => "null".toList
  | .arr items => jsArrString items
  | .obj _ => "[object Object]".toList
/-- `Array.prototype.join(',')`: elements are stringified (a `null`
element joins as the empty string) and separated by commas. -/
def jsArrString : CfnArray → Str
  | .nil => []
  | .cons v rest =>
    let head : Str := match v with | .null => [] | _ => jsStringOf v
    match rest with
    | .nil => head
    | .cons _ _ => head ++ ',' :: jsArrString rest
end

/-! ## ResourceMapper (src/mapper/index.ts) -/

namespace ResourceMapper

/-- The static CloudFormation-kind to Terraform-kind table
(`resourceTypeMapping`). -/
def resourceTypeMapping : List (Str × Str) :=
  [("AWS::S3::Bucket".toList, "aws_s3_bucket".toList),
   ("AWS::IAM::Role".toList, "aws_iam_role".toList),
   ("AWS::Lambda::Function".toList, "aws_lambda_function".toList),
   ("AWS::DynamoDB::Table".toList, "aws_dynamodb_table".toList)]

/-- First-match lookup in a string-keyed record (`table[key]`); `none`
models `undefined`. -/
def lookupStr : List (Str × Str) → Str → Option Str
  | [], _ => none
  | (k, v) :: rest, key => if k = key then some v else lookupStr rest key

/-- The intrinsic marker `'Ref'`. -/
def refKey : Str := "Ref".toList

/-- The intrinsic marker `'Fn::GetAtt'`. -/
def getAttKey : Str := "Fn::GetAtt".toList

/-- The fragment emitted for a `Ref` intrinsic by `transformValue` and
`transformExpression` alike: the template literal
`` `${var.<stringified Ref value>}` `` (braces written escaped). -/
def varRefFrag (s : Str) : Str :=
  "$\x7bvar.".toList ++ s ++ "\x7d".toList

/-- JavaScript array destructuring `const [a, b] = x` for the first two
positions. `none` models the `TypeError` thrown when `x` is not iterable;
a missing position is `undefined` (inner `none`). A string destructures
into its characters (strings are iterable, yielding one-character
strings). -/
def destructure2 : CfnValue → Option (Option CfnValue × Option CfnValue)
  | .arr l => some (arrGet l 0, arrGet l 1)
  | .str s => some ((s.head?).map (fun c => CfnValue.str [c]),
                    (s[1]?).map (fun c => CfnValue.str [c]))
  | _ => none

/-- The `Fn::GetAtt` branch shared verbatim by `transformValue` and
`transformExpression`:
`const [resourceName, attribute] = value['Fn::GetAtt']` followed by the
template literal
`` `${resourceTypeMapping[resourceName]}.${sanitizeResourceName(resourceName)}.${camelToSnakeCase(attribute)}` ``
wrapped in `${...}`. The table lookup keys on the *resource name* (not a
CloudFormation kind), so it is `undefined` — stringified as `undefined` —
for every name outside the table. `sanitizeResourceName` on a non-string
or `undefined` resource name throws, as does `camelToSnakeCase` on a
non-string or `undefined` attribute (`none`). -/
def getAttFragment (gav : CfnValue) : Option Str :=
  match destructure2 gav with
  | none => none
  | some (rn?, at?) =>
    match rn? with
    | some (.str rn) =>
      match at? with
      | some (.str a) =>
          some ("$\x7b".toList
            ++ ((lookupStr resourceTypeMapping rn).getD ("undefined".toList))
            ++ ".".toList ++ sanitizeResourceName rn
            ++ ".".toList ++ camelToSnakeCase a ++ "\x7d".toList)
      | _ => none
    | _ => none

mutual
/-- `transformValue` (src/mapper/index.ts). Arrays map elementwise; an
object carrying the `Ref` key yields the `${var.<name>}` fragment; one
carrying `Fn::GetAtt` yields the attribute fragment; any other object is
rebuilt entry by entry with keys rewritten by `camelToSnakeCase`
(`result[camelToSnakeCase(k)] = transformValue(v)`); scalars pass through.
In this model `'Ref' in value` (key presence) and a successful
`lookupObj` coincide, so the branch is taken on the lookup. `none` models
a thrown `TypeError` (only possible in the `Fn::GetAtt` branch). -/
def transformValue : CfnValue → Option CfnValue
  | .arr items => (transformArr items).map CfnValue.arr
  | .obj entries =>
    match lookupObj entries refKey with
    | some rv => some (.str (varRefFrag (jsStringOf rv)))
    | none =>
      match lookupObj entries getAttKey with
      | some gav => (getAttFragment gav).map CfnValue.str
      | none => (transformObj .nil entries).map CfnValue.obj
  | v => some v
/-- `value.map(item => this.transformValue(item))`. -/
def transformArr : CfnArray → Option CfnArray
  | .nil => some .nil
  | .cons x xs =>
    match transformValue x with
    | none => none
    | some x' =>
      match transformArr xs with
      | none => none
      | some xs' => some (.cons x' xs')
/-- The `Object.entries(value).forEach` loop of the plain-object branch,
with the object built so far as accumulator. -/
def transformObj : CfnObject → CfnObject → Option CfnObject
  | acc, .nil => some acc
  | acc, .cons k v rest =>
    match transformValue v with
    | none => none
    | some v' => transformObj (insertJs acc (camelToSnakeCase k) v') rest
end

/-- `transformExpression` (src/mapper/index.ts): like the intrinsic cases
of `transformValue` but returning a string, with `String(expression)` as
the fallback for everything else (arrays carry neither marker key, so they
fall through to stringification, as in the source where `'Ref' in value`
is false on an array). -/
def transformExpression (expression : CfnValue) : Option Str :=
  match expression with
  | .obj entries =>
    match lookupObj entries refKey with
    | some rv => some (varRefFrag (jsStringOf rv))
    | none =>
      match lookupObj entries getAttKey with
      | some gav => getAttFragment gav
      | none => some (jsStringOf expression)
  | e => some (jsStringOf e)

/-- `mapParameterType` (src/mapper/index.ts): the four-way `switch`. -/
def mapParameterType (cfnType : Str) : Str :=
  if cfnType = "String".toList then "string".toList
  else if cfnType = "Number".toList then "number".toList
  else if cfnType = "CommaDelimitedList".toList then "list(string)".toList
  else "any".toList

/-- `mapProperties` (src/mapper/index.ts): rebuilds the property record
with `result[camelToSnakeCase(key)] = transformValue(value)` for each
entry. The resource-type argument is unused in the source as well. -/
def mapProperties (_resourceType : Str) (properties : CfnObject) : Option CfnObject :=
  transformObj .nil properties

end ResourceMapper

/-! ## Template-level data (src/parser/index.ts interfaces) -/

/-- A parameter declaration: `Type`, `Default?`, `Description?`
(`Type` is a Lean keyword, hence the field name `ptype`). -/
structure CfnParameter where
  ptype : Str
  Default : Option CfnValue
  Description : Option Str

/-- The `DependsOn?: string | string[]` field. -/
inductive DependsOnField where
  | single (s : Str)
  | multi (l : List Str)

/-- `CloudFormationResource`: `Type`, `Properties`, `DependsOn?`
(`Type` is a Lean keyword, hence the field name `rtype`). -/
structure CfnResource where
  rtype : Str
  Properties : CfnObject
  DependsOn : Option DependsOnField

/-- An output declaration: `Value` and `Description?`. -/
structure CfnOutput where
  Value : CfnValue
  Description : Option Str

/-- `CloudFormationTemplate`: `Parameters?`, `Resources`, `Outputs?`,
each record modelled as an insertion-ordered association list. -/
structure CfnTemplate where
  Parameters : Option (List (Str × CfnParameter))
  Resources : List (Str × CfnResource)
  Outputs : Option (List (Str × CfnOutput))

/-- `TerraformResource` (src/mapper/index.ts): `type`, `name`,
`properties`, `dependencies?` (`type` is spelled `tftype`). -/
structure TerraformResource where
  tftype : Str
  name : Str
  properties : CfnObject
  dependencies : Option (List Str)

/-- A mapped Terraform variable: `type`, `default`, `description`
(`default` is a reserved name, hence `Default`). -/
structure TfVariable where
  vtype : Str
  Default : Option CfnValue
  Description : Option Str

/-- A mapped Terraform output: `value` and `description`. -/
structure TfOutput where
  value : Str
  description : Option Str

/-- `TerraformConfig`: resources, variables, outputs (the field
`variables` is a reserved word in Lean, hence `tfVariables`). -/
structure TerraformConfig where
  resources : List TerraformResource
  tfVariables : List (Str × TfVariable)
  outputs : List (Str × TfOutput)

namespace ResourceMapper

/-- The `console.warn` message of `mapResource` for an unmapped kind. -/
def warnUnsupported (t : Str) : Str :=
  "Unsupported resource type: ".toList ++ t

/-- Record assignment `rec[k] = v` on a generic association list
(existing key keeps its position, fresh key appends). -/
def insertAssoc {α : Type} : List (Str × α) → Str → α → List (Str × α)
  | [], k, v => [(k, v)]
  | (k', v') :: rest, k, v =>
      if k' = k then (k', v) :: rest else (k', v') :: insertAssoc rest k v

/-- `mapResource` (src/mapper/index.ts). An unmapped `Type` warns and
yields `null` (modelled `(none, [warning])`); otherwise the properties are
mapped, `DependsOn` is normalized — a truthy lone string is wrapped in a
one-element array (the empty string is falsy and yields `undefined`), an
array (truthy even when empty) passes through unchanged — and the
sanitized name is attached. The outer `none` models an exception
propagating out of `mapProperties`. -/
def mapResource (name : Str) (resource : CfnResource) :
    Option (Option TerraformResource × List Str) :=
  match lookupStr resourceTypeMapping resource.rtype with
  | none => some (none, [warnUnsupported resource.rtype])
  | some terraformType =>
    match mapProperties resource.rtype resource.Properties with
    | none => none
    | some properties =>
      let dependencies : Option (List Str) :=
        match resource.DependsOn with
        | none => none
        | some (.single s) => if s.isEmpty then none else some [s]
        | some (.multi l) => some l
      some (some ⟨terraformType, sanitizeResourceName name, properties, dependencies⟩, [])

/-- The parameters loop of `mapTemplate`:
`variables[name] = { type: mapParameterType(param.Type), default: ..., description: ... }`. -/
def mapVariablesList (acc : List (Str × TfVariable)) :
    List (Str × CfnParameter) → List (Str × TfVariable)
  | [] => acc
  | (name, param) :: rest =>
      mapVariablesList
        (insertAssoc acc name ⟨mapParameterType param.ptype, param.Default, param.Description⟩)
        rest

/-- The resources loop of `mapTemplate`: mapped resources are pushed in
source order, `null` results are skipped, warnings accumulate in emission
order, and an exception aborts the run (`none`). -/
def mapResourcesList (acc : List TerraformResource) (warns : List Str) :
    List (Str × CfnResource) → Option (List TerraformResource × List Str)
  | [] => some (acc, warns)
  | (name, resource) :: rest =>
    match mapResource name resource with
    | none => none
    | some (some tr, ws) => mapResourcesList (acc ++ [tr]) (warns ++ ws) rest
    | some (none, ws) => mapResourcesList acc (warns ++ ws) rest

/-- The outputs loop of `mapTemplate`:
`outputs[name] = { value: transformExpression(output.Value), description: ... }`;
an exception from `transformExpression` aborts the run. -/
def mapOutputsList (acc : List (Str × TfOutput)) :
    List (Str × CfnOutput) → Option (List (Str × TfOutput))
  | [] => some acc
  | (name, output) :: rest =>
    match transformExpression output.Value with
    | none => none
    | some value => mapOutputsList (insertAssoc acc name ⟨value, output.Description⟩) rest

/-- `mapTemplate` (src/mapper/index.ts): parameters, then resources, then
outputs; returns the assembled config together with the list of warnings
printed along the way, or `none` when the run throws. -/
def mapTemplate (template : CfnTemplate) : Option (TerraformConfig × List Str) :=
  let tfVariables := mapVariablesList [] (template.Parameters.getD [])
  match mapResourcesList [] [] template.Resources with
  | none => none
  | some (resources, warns) =>
    match mapOutputsList [] (template.Outputs.getD []) with
    | none => none
    | some outputs => some (⟨resources, tfVariables, outputs⟩, warns)

end ResourceMapper

/-! ## The YAML shorthand normalizer for `!GetAtt` (src/parser/index.ts) -/

namespace CloudFormationParser

/-- `data.split('.')` — JavaScript `String.prototype.split` on a
one-character separator. -/
def splitOnDot : Str → List Str
  | [] => [[]]
  | c :: rest =>
    if c = '.' then [] :: splitOnDot rest
    else
      match splitOnDot rest with
      | [] => [[c]]
      | p :: ps => (c :: p) :: ps

/-- `parts.join('.')`. -/
def joinDot : List Str → Str
  | [] => []
  | [x] => x
  | x :: y :: rest => x ++ '.' :: joinDot (y :: rest)

/-- The `!GetAtt` shorthand constructor of the custom YAML schema:
`parts = data.split('.')` and the node
`{ 'Fn::GetAtt': [parts[0], parts.slice(1).join('.')] }`
(`split` never returns an empty array, so `parts[0]` is total). -/
def cfnGetAttOfScalar (data : Str) : CfnValue :=
  let parts := splitOnDot data
  .obj (.cons ResourceMapper.getAttKey
    (.arr (CfnArray.ofList
      [CfnValue.str (parts.headD []), CfnValue.str (joinDot (parts.drop 1))]))
    .nil)

end CloudFormationParser

/-! ## CdktfGenerator.terraformTypeToTypeScript (src/generator/index.ts) -/

namespace CdktfGenerator

/-- Index of the leftmost occurrence of `pat` in `s` (the position where a
regex match can start). -/
def findSub (pat s : Str) : Option Nat :=
  (List.range (s.length + 1)).find? (fun p => pat.isPrefixOf (s.drop p))

/-- Index of the rightmost `')'` in `s` (where the greedy `(.*)\)` match
places the closing parenthesis). -/
def lastCloseParen (s : Str) : Option Nat :=
  ((List.range s.length).reverse).find? (fun i => s[i]? == some ')')

/-- The capture of `s.match(/marker\((.*)\)/)?.[1]`: the regex matches at
the leftmost occurrence of `marker(`, the greedy `.*` runs to the last
`')'` of the string, and the capture is everything in between. If the
first `marker(` has no `')'` after it, no later occurrence has one either,
so the whole match fails (`none`, JavaScript `undefined`). -/
def extractInner (marker s : Str) : Option Str :=
  match findSub (marker ++ "(".toList) s with
  | none => none
  | some p =>
    match lastCloseParen s with
    | none => none
    | some q =>
      if p + marker.length + 1 ≤ q then
        some ((s.drop (p + marker.length + 1)).take (q - (p + marker.length + 1)))
      else none

/-- `s.match(/marker\((.*)\)/)?.[1] || 'any'`: a failed match — and also an
*empty* capture, since `''` is falsy in JavaScript — falls back to
`'any'`. -/
def innerOr (marker s : Str) : Str :=
  match extractInner marker s with
  | some t => if t.isEmpty then "any".toList else t
  | none => "any".toList

theorem lastCloseParen_lt (s : Str) (q : Nat) (h : lastCloseParen s = some q) :
    q < s.length := by
  have hmem : q ∈ (List.range s.length).reverse := List.mem_of_find?_eq_some h
  rw [List.mem_reverse, List.mem_range] at hmem
  exact hmem

theorem extractInner_length (m s t : Str) (h : extractInner m s = some t) :
    t.length + m.length + 2 ≤ s.length := by
  unfold extractInner at h
  split at h
  · exact Option.noConfusion h
  next p hp =>
    split at h
    · exact Option.noConfusion h
    next q hq =>
      split at h
      next hle =>
        have hq' : q < s.length := lastCloseParen_lt _ _ hq
        cases h
        simp only [List.length_take, List.length_drop]
        omega
      next hle => exact Option.noConfusion h

theorem innerOr_any_or_short (m s : Str) :
    innerOr m s = "any".toList ∨ (innerOr m s).length + m.length + 2 ≤ s.length := by
  cases h : extractInner m s with
  | none => exact Or.inl (by simp [innerOr, h])
  | some t =>
    by_cases he : t.isEmpty
    · exact Or.inl (by simp [innerOr, h, he])
    · right
      have hl := extractInner_length m s t h
      simp only [innerOr, h, if_neg he]
      omega

/-- Termination measure for `terraformTypeToTypeScript`: twice the length,
plus one when the string enters a recursing (`list`/`map`) branch. The
`'any'` fallback argument can tie the input length (input `map`), but its
measure still drops because `any` matches no recursing branch. -/
def ttMeasure (s : Str) : Nat :=
  2 * s.length + (if ("list".toList).isPrefixOf s || ("map".toList).isPrefixOf s then 1 else 0)

theorem ttMeasure_le (s : Str) : ttMeasure s ≤ 2 * s.length + 1 := by
  unfold ttMeasure; split <;> omega

theorem ttMeasure_ge (s : Str) : 2 * s.length ≤ ttMeasure s := by
  unfold ttMeasure; split <;> omega

theorem isPrefixOf_length_le {l1 l2 : Str} (h : l1.isPrefixOf l2 = true) :
    l1.length ≤ l2.length :=
  (List.isPrefixOf_iff_prefix.mp h).length_le

theorem ttMeasure_lt_of_marker (m s : Str) (hm : 3 ≤ m.length)
    (hpre : m.isPrefixOf s = true)
    (hm2 : ttMeasure s = 2 * s.length + 1) :
    ttMeasure (innerOr m s) < ttMeasure s := by
  have hlen : 3 ≤ s.length := le_trans hm (isPrefixOf_length_le hpre)
  rcases innerOr_any_or_short m s with h | h
  · rw [h]
    have : ttMeasure ("any".toList) = 6 := by decide
    rw [this, hm2]
    omega
  · have h1 := ttMeasure_le (innerOr m s)
    omega

/-- `terraformTypeToTypeScript` (src/generator/index.ts): classification by
`startsWith` prefix; `list(...)`/`map(...)` recurse on the captured inner
type (or the `'any'` fallback) and wrap the result in `[]` /
`Record<string, _>`; anything else is `any`. Total — the recursion is
well-founded by `ttMeasure`. -/
def terraformTypeToTypeScript (terraformType : Str) : Str :=
  if ("string".toList).isPrefixOf terraformType then "string".toList
  else if ("number".toList).isPrefixOf terraformType then "number".toList
  else if ("bool".toList).isPrefixOf terraformType then "boolean".toList
  else if h4 : ("list".toList).isPrefixOf terraformType then
    terraformTypeToTypeScript (innerOr ("list".toList) terraformType) ++ "[]".toList
  else if h5 : ("map".toList).isPrefixOf terraformType then
    "Record<string, ".toList
      ++ terraformTypeToTypeScript (innerOr ("map".toList) terraformType)
      ++ ">".toList
  else "any".toList
termination_by ttMeasure terraformType
decreasing_by
  · exact ttMeasure_lt_of_marker ("list".toList) terraformType (by decide) h4
      (by unfold ttMeasure; rw [if_pos (by rw [h4, Bool.true_or])])
  · exact ttMeasure_lt_of_marker ("map".toList) terraformType (by decide) h5
      (by unfold ttMeasure; rw [if_pos (by rw [h5, Bool.or_true])])

/-- Fuel-indexed variant of `terraformTypeToTypeScript`: each call consumes
one unit of fuel, so `ttFuel f s = some _` certifies that the recursion
starting at `s` is at most `f` calls deep. -/
def ttFuel : Nat → Str → Option Str
  | 0, _ => none
  | fuel + 1, terraformType =>
    if ("string".toList).isPrefixOf terraformType then some ("string".toList)
    else if ("number".toList).isPrefixOf terraformType then some ("number".toList)
    else if ("bool".toList).isPrefixOf terraformType then some ("boolean".toList)
    else if ("list".toList).isPrefixOf terraformType then
      (ttFuel fuel (innerOr ("list".toList) terraformType)).map
        (fun r => r ++ "[]".toList)
    else if ("map".toList).isPrefixOf terraformType then
      (ttFuel fuel (innerOr ("map".toList) terraformType)).map
        (fun r => "Record<string, ".toList ++ r ++ ">".toList)
    else some ("any".toList)

end CdktfGenerator

/-! ## Character-level lemmas for sanitization -/

theorem toNat_ofNat_valid (n : Nat) (h : n < 55296) : (Char.ofNat n).toNat = n := by
  rw [Char.ofNat, dif_pos (Or.inl h)]
  simp [Char.ofNatAux, Char.toNat, UInt32.toNat]

theorem toNat_le_of_allowed (c : Char) (h : isAllowedNameChar c = true) :
    c.toNat ≤ 122 := by
  simp only [isAllowedNameChar, Bool.or_eq_true, Bool.and_eq_true,
    decide_eq_true_eq] at h
  omega

theorem sanitizeChar_allowed (c : Char) : isAllowedNameChar (sanitizeChar c) = true := by
  unfold sanitizeChar
  by_cases h : isAllowedNameChar c = true
  · rw [if_pos h]; exact h
  · rw [if_neg h]; decide

theorem toLower_allowed_not_upper (c : Char) (h : isAllowedNameChar c = true) :
    isAllowedNameChar c.toLower = true ∧ ¬(65 ≤ c.toLower.toNat ∧ c.toLower.toNat ≤ 90) := by
  have hle := toNat_le_of_allowed c h
  unfold Char.toLower
  by_cases hu : c.toNat ≥ 65 ∧ c.toNat ≤ 90
  · rw [if_pos hu]
    have hv : (Char.ofNat (c.toNat + 32)).toNat = c.toNat + 32 :=
      toNat_ofNat_valid _ (by omega)
    constructor
    · simp only [isAllowedNameChar, Bool.or_eq_true, Bool.and_eq_true,
        decide_eq_true_eq, hv]
      omega
    · rw [hv]; omega
  · rw [if_neg hu]
    exact ⟨h, hu⟩

theorem toLower_id_of_not_upper (c : Char) (h : ¬(65 ≤ c.toNat ∧ c.toNat ≤ 90)) :
    c.toLower = c := by
  simp only [Char.toLower]
  rw [if_neg h]

theorem sanitizeStep_idem (c : Char) :
    (sanitizeChar (sanitizeChar c).toLower).toLower = (sanitizeChar c).toLower := by
  obtain ⟨ha, hu⟩ := toLower_allowed_not_upper (sanitizeChar c) (sanitizeChar_allowed c)
  rw [show sanitizeChar (sanitizeChar c).toLower = (sanitizeChar c).toLower from
    if_pos ha]
  exact toLower_id_of_not_upper _ hu

namespace ResourceMapper

theorem sanitizeResourceName_idem (s : Str) :
    sanitizeResourceName (sanitizeResourceName s) = sanitizeResourceName s := by
  unfold sanitizeResourceName
  simp only [List.map_map]
  exact List.map_congr_left (fun c _ => sanitizeStep_idem c)

end ResourceMapper

/-- C7: `sanitize` is total (defined for every string, the empty string
mapping to the empty string — in this model totality is the very existence
of `sanitizeResourceName` as a Lean function on all of `Str`) and
idempotent, and `sanitize("My-Bucket.1") = "my_bucket_1"`; each character
outside `[A-Za-z0-9_]` is replaced by `'_'` (see `sanitizeChar`) and the
result is lower-cased. -/
theorem c7_theorem :
    (∀ s : Str, ResourceMapper.sanitizeResourceName
        (ResourceMapper.sanitizeResourceName s) = ResourceMapper.sanitizeResourceName s)
    ∧ ResourceMapper.sanitizeResourceName ("My-Bucket.1".toList) = "my_bucket_1".toList
    ∧ ResourceMapper.sanitizeResourceName [] = [] :=
  ⟨ResourceMapper.sanitizeResourceName_idem, by decide, rfl⟩

/-! ## Lemmas about key rewriting and property mapping -/

namespace ResourceMapper

theorem camelToSnakeCase_upper_head (c : Char) (rest : Str)
    (h : 65 ≤ c.toNat ∧ c.toNat ≤ 90) :
    camelToSnakeCase (c :: rest) =
      '_' :: Char.toLower c :: camelToSnakeCase rest := by
  unfold camelToSnakeCase expandUpper
  rw [List.map_cons, if_pos h, List.flatten_cons, List.map_append]
  rfl

theorem hasKey_insertJs : ∀ (o : CfnObject) (k : Str) (v : CfnValue) (k' : Str),
    hasKey (insertJs o k v) k' = (hasKey o k' || decide (k = k'))
  | .nil, k, v, k' => by
    simp only [insertJs, hasKey]
    by_cases h : k = k' <;> simp [h]
  | .cons k0 v0 rest, k, v, k' => by
    have ih := hasKey_insertJs rest k v k'
    simp only [insertJs]
    by_cases h0 : k0 = k
    · rw [if_pos h0]
      simp only [hasKey]
      subst h0
      by_cases h1 : k0 = k' <;> simp [h1]
    · rw [if_neg h0]
      simp only [hasKey]
      by_cases h1 : k0 = k' <;> simp [h1, ih]

theorem transformObj_keys : ∀ (o acc out : CfnObject), transformObj acc o = some out →
    ∀ k', hasKey out k' = true →
      hasKey acc k' = true ∨ ∃ k0, k0 ∈ objKeys o ∧ k' = camelToSnakeCase k0
  | .nil, acc, out, h, k', hk => by
    cases h
    exact Or.inl hk
  | .cons k v rest, acc, out, h, k', hk => by
    rw [show transformObj acc (.cons k v rest) =
          (match transformValue v with
           | none => none
           | some v' => transformObj (insertJs acc (camelToSnakeCase k) v') rest)
        from rfl] at h
    cases hv : transformValue v with
    | none => rw [hv] at h; exact Option.noConfusion h
    | some v' =>
      rw [hv] at h
      rcases transformObj_keys rest _ _ h k' hk with hacc | ⟨k0, hk0, he⟩
      · rw [hasKey_insertJs] at hacc
        rcases Bool.or_eq_true_iff.mp hacc with h1 | h2
        · exact Or.inl h1
        · exact Or.inr ⟨k, by simp [objKeys], (of_decide_eq_true h2).symm⟩
      · exact Or.inr ⟨k0, by simp [objKeys, hk0], he⟩

end ResourceMapper

/-- C10 witness helper: a tiny concrete property record. -/
def c10Props : CfnObject :=
  .cons ("BucketName".toList) (.str ("x".toList)) .nil

/-- C10: the casing rule inserts `'_'` in front of *every* ASCII capital,
including one at position 0, before lower-casing — so a property key
beginning with a capital is rewritten to a key beginning with `'_'`
(`"BucketName"` becomes `"_bucket_name"`, not `"bucket_name"`), and every
key of a mapped property record is `camelToSnakeCase` of some source key,
so the rule reaches every rewritten mapping key. -/
theorem c10_theorem :
    (∀ (c : Char) (rest : Str), 65 ≤ c.toNat → c.toNat ≤ 90 →
      ∃ t, ResourceMapper.camelToSnakeCase (c :: rest) = '_' :: t)
    ∧ ResourceMapper.camelToSnakeCase ("BucketName".toList) = "_bucket_name".toList
    ∧ ResourceMapper.camelToSnakeCase ("BucketName".toList) ≠ "bucket_name".toList
    ∧ (∀ (rt : Str) (props out : CfnObject),
        ResourceMapper.mapProperties rt props = some out →
        ∀ k', hasKey out k' = true →
          ∃ k0, k0 ∈ objKeys props ∧ k' = ResourceMapper.camelToSnakeCase k0) := by
  refine ⟨?_, by decide, by decide, ?_⟩
  · intro c rest h1 h2
    exact ⟨_, ResourceMapper.camelToSnakeCase_upper_head c rest ⟨h1, h2⟩⟩
  · intro rt props out h k' hk
    rcases ResourceMapper.transformObj_keys props .nil out h k' hk with hacc | hgood
    · exact absurd hacc (by simp [hasKey])
    · exact hgood

/-- C10 witness: the theorem applied at the concrete key `"BucketName"`
and a one-entry property record. -/
theorem c10_theorem_witness :
    (∃ t, ResourceMapper.camelToSnakeCase ('B' :: "ucketName".toList) = '_' :: t)
    ∧ (∃ k0, k0 ∈ objKeys c10Props
        ∧ "_bucket_name".toList = ResourceMapper.camelToSnakeCase k0) := by
  refine ⟨c10_theorem.1 'B' ("ucketName".toList) (by decide) (by decide), ?_⟩
  exact c10_theorem.2.2.2 [] c10Props
    (.cons ("_bucket_name".toList) (.str ("x".toList)) .nil) rfl
    ("_bucket_name".toList) (by decide)

/-! ## Reference resolution (claims C1 and C5) -/

namespace ResourceMapper

theorem transformValue_ref (entries : CfnObject) (rv : CfnValue)
    (h : lookupObj entries refKey = some rv) :
    transformValue (.obj entries) = some (.str (varRefFrag (jsStringOf rv))) := by
  rw [show transformValue (.obj entries) =
        (match lookupObj entries refKey with
         | some rv => some (.str (varRefFrag (jsStringOf rv)))
         | none =>
           match lookupObj entries getAttKey with
           | some gav => (getAttFragment gav).map CfnValue.str
           | none => (transformObj .nil entries).map CfnValue.obj)
      from rfl, h]

theorem transformExpression_ref (entries : CfnObject) (rv : CfnValue)
    (h : lookupObj entries refKey = some rv) :
    transformExpression (.obj entries) = some (varRefFrag (jsStringOf rv)) := by
  rw [show transformExpression (.obj entries) =
        (match lookupObj entries refKey with
         | some rv => some (varRefFrag (jsStringOf rv))
         | none =>
           match lookupObj entries getAttKey with
           | some gav => getAttFragment gav
           | none => some (jsStringOf (CfnValue.obj entries)))
      from rfl, h]

end ResourceMapper

/-- C1 counterexample scaffolding: the template whose `Dual` is a declared
parameter only. -/
def c1TplParam : CfnTemplate :=
  { Parameters := some [("Dual".toList, ⟨"String".toList, none, none⟩)]
    Resources := [("R".toList,
      ⟨"AWS::S3::Bucket".toList,
       .cons ("Name".toList)
         (.obj (.cons ResourceMapper.refKey (.str ("Dual".toList)) .nil)) .nil,
       none⟩)]
    Outputs := none }

/-- C1 counterexample scaffolding: the same `Ref Dual` property, but with
`Dual` a declared resource and no parameters at all. -/
def c1TplResource : CfnTemplate :=
  { Parameters := none
    Resources := [("Dual".toList, ⟨"AWS::S3::Bucket".toList, .nil, none⟩),
                  ("R".toList,
      ⟨"AWS::S3::Bucket".toList,
       .cons ("Name".toList)
         (.obj (.cons ResourceMapper.refKey (.str ("Dual".toList)) .nil)) .nil,
       none⟩)]
    Outputs := none }

/-- The resolved property record both templates produce for resource `R`. -/
def c1ResolvedProps : CfnObject :=
  .cons ("_name".toList) (.str ("$\x7bvar.Dual\x7d".toList)) .nil

/-- C1: the claim is false — reference resolution neither distinguishes a
declared parameter name from a declared resource name nor sanitizes the
identifier. With the same raw identifier `Dual` declared once as the sole
parameter and once as a resource, the resolved property fragments are
byte-identical (`"${var.Dual}"` in both templates), and for the name
`My-Bucket` the emitted fragment carries the raw text while its sanitized
form `my_bucket` does not occur in the fragment at all. -/
theorem c1_counterexample :
    ResourceMapper.transformValue
        (.obj (.cons ResourceMapper.refKey (.str ("My-Bucket".toList)) .nil))
      = some (.str ("$\x7bvar.My-Bucket\x7d".toList))
    ∧ ¬ (ResourceMapper.sanitizeResourceName ("My-Bucket".toList)
          <:+: ("$\x7bvar.My-Bucket\x7d".toList))
    ∧ (ResourceMapper.mapTemplate c1TplParam).map
        (fun p => p.1.resources.map (·.properties)) = some [c1ResolvedProps]
    ∧ (ResourceMapper.mapTemplate c1TplResource).map
        (fun p => p.1.resources.map (·.properties)) = some [.nil, c1ResolvedProps] :=
  ⟨rfl, by decide, rfl, rfl⟩

/-- C1 amended: `Ref` resolution is context-free and unsanitized — for
*every* object carrying the `Ref` key, `transformValue` and
`transformExpression` emit the single fragment `${var.<raw name>}`, with
the referenced name stringified verbatim; no parameter-name or
resource-name set is ever consulted (the resolver does not even take
one). -/
theorem c1_amended (entries : CfnObject) (rv : CfnValue)
    (h : lookupObj entries ResourceMapper.refKey = some rv) :
    ResourceMapper.transformValue (.obj entries)
        = some (.str (ResourceMapper.varRefFrag (jsStringOf rv)))
    ∧ ResourceMapper.transformExpression (.obj entries)
        = some (ResourceMapper.varRefFrag (jsStringOf rv)) :=
  ⟨ResourceMapper.transformValue_ref entries rv h,
   ResourceMapper.transformExpression_ref entries rv h⟩

/-- C1 amended, witness at a concrete `Ref` node. -/
theorem c1_amended_witness :
    ResourceMapper.transformValue
        (.obj (.cons ResourceMapper.refKey (.str ("MyBucket".toList)) .nil))
      = some (.str (ResourceMapper.varRefFrag (jsStringOf (.str ("MyBucket".toList))))) :=
  (c1_amended (.cons ResourceMapper.refKey (.str ("MyBucket".toList)) .nil)
    (.str ("MyBucket".toList)) rfl).1

/-- The pseudo-parameter namespace: the environment-identity names
(`AWS::Region`, `AWS::AccountId`, `AWS::StackName`, ...) all live under
the `AWS::` prefix, the test the repository's compiled mapper build uses
for them. -/
def isPseudoParameterName (s : Str) : Bool :=
  ("AWS::".toList).isPrefixOf s

/-- C5: the claim is false — a `Ref` to the pseudo-parameter
`AWS::Region` resolves to the expression fragment `"${var.AWS::Region}"`
(an expression fragment addressing a variable, starting with `${var.`),
not to the quoted literal `"\"AWS::Region\""`. -/
theorem c5_counterexample :
    ResourceMapper.transformValue
        (.obj (.cons ResourceMapper.refKey (.str ("AWS::Region".toList)) .nil))
      = some (.str ("$\x7bvar.AWS::Region\x7d".toList))
    ∧ ResourceMapper.transformExpression
        (.obj (.cons ResourceMapper.refKey (.str ("AWS::Region".toList)) .nil))
      = some ("$\x7bvar.AWS::Region\x7d".toList)
    ∧ ("$\x7bvar.".toList).isPrefixOf ("$\x7bvar.AWS::Region\x7d".toList) = true
    ∧ ("$\x7bvar.AWS::Region\x7d".toList) ≠ ("\"AWS::Region\"".toList) :=
  ⟨rfl, rfl, by decide, by decide⟩

/-- C5 amended: pseudo-parameter names get no special treatment — a `Ref`
to any name in the `AWS::` pseudo-parameter namespace resolves to the same
`${var.<name>}` variable-addressing fragment as every other reference; a
quoted literal is never produced. -/
theorem c5_amended (name : Str) (_h : isPseudoParameterName name = true) :
    ResourceMapper.transformValue
        (.obj (.cons ResourceMapper.refKey (.str name) .nil))
      = some (.str (ResourceMapper.varRefFrag name))
    ∧ ResourceMapper.transformExpression
        (.obj (.cons ResourceMapper.refKey (.str name) .nil))
      = some (ResourceMapper.varRefFrag name) :=
  ⟨ResourceMapper.transformValue_ref _ (.str name) rfl,
   ResourceMapper.transformExpression_ref _ (.str name) rfl⟩

/-- C5 amended, witness at `AWS::Region`. -/
theorem c5_amended_witness :
    isPseudoParameterName ("AWS::Region".toList) = true
    ∧ ResourceMapper.transformValue
        (.obj (.cons ResourceMapper.refKey (.str ("AWS::Region".toList)) .nil))
      = some (.str (ResourceMapper.varRefFrag ("AWS::Region".toList))) :=
  ⟨by decide, (c5_amended ("AWS::Region".toList) (by decide)).1⟩

/-! ## Attribute references (claim C2) -/

namespace CloudFormationParser

theorem splitOnDot_ne_nil : ∀ s : Str, splitOnDot s ≠ []
  | [] => by simp [splitOnDot]
  | c :: rest => by
    unfold splitOnDot
    by_cases h : c = '.'
    · rw [if_pos h]; simp
    · rw [if_neg h]
      cases hs : splitOnDot rest with
      | nil => simp
      | cons p ps => simp

theorem splitOnDot_append (r a : Str) (h : '.' ∉ r) :
    splitOnDot (r ++ '.' :: a) = r :: splitOnDot a := by
  induction r with
  | nil => simp [splitOnDot]
  | cons c rs ih =>
    have hc : c ≠ '.' := fun he => h (he ▸ List.mem_cons_self c rs)
    have hrs : '.' ∉ rs := fun hm => h (List.mem_cons_of_mem c hm)
    rw [List.cons_append]
    rw [show splitOnDot (c :: (rs ++ '.' :: a)) =
          (if c = '.' then [] :: splitOnDot (rs ++ '.' :: a)
           else match splitOnDot (rs ++ '.' :: a) with
                | [] => [[c]]
                | p :: ps => (c :: p) :: ps) from rfl]
    rw [if_neg hc, ih hrs]

theorem joinDot_splitOnDot : ∀ a : Str, joinDot (splitOnDot a) = a
  | [] => by simp [splitOnDot, joinDot]
  | c :: rest => by
    have ih := joinDot_splitOnDot rest
    unfold splitOnDot
    by_cases h : c = '.'
    · rw [if_pos h]
      cases hs : splitOnDot rest with
      | nil => exact absurd hs (splitOnDot_ne_nil rest)
      | cons p ps =>
        rw [hs] at ih
        subst h
        cases ps with
        | nil => simpa [joinDot] using ih
        | cons q qs => simpa [joinDot] using ih
    · rw [if_neg h]
      cases hs : splitOnDot rest with
      | nil => exact absurd hs (splitOnDot_ne_nil rest)
      | cons p ps =>
        rw [hs] at ih
        cases ps with
        | nil => simpa [joinDot] using ih
        | cons q qs =>
          simp only [joinDot] at ih ⊢
          rw [List.cons_append, ih]

end CloudFormationParser

namespace ResourceMapper

/-- The `Fn::GetAtt` node with a well-formed two-element argument. -/
def getAttNode (r a : Str) : CfnValue :=
  .obj (.cons getAttKey (.arr (.ofList [.str r, .str a])) .nil)

/-- The fragment `transformExpression`/`transformValue` emit for a
well-formed `Fn::GetAtt` node: `${<table[resource]>.<sanitized>.<snaked>}`,
where the table lookup keys on the resource *name* and stringifies to
`undefined` when absent. -/
def getAttFragmentOf (r a : Str) : Str :=
  "$\x7b".toList
    ++ ((lookupStr resourceTypeMapping r).getD ("undefined".toList))
    ++ ".".toList ++ sanitizeResourceName r
    ++ ".".toList ++ camelToSnakeCase a ++ "\x7d".toList

end ResourceMapper

/-- C2 counterexample scaffolding: the end-to-end template — one mapped
storage resource and one output that is an `Fn::GetAtt` reference to its
`Arn` attribute. -/
def c2Template : CfnTemplate :=
  { Parameters := none
    Resources := [("MyS3Bucket".toList, ⟨"AWS::S3::Bucket".toList, .nil, none⟩)]
    Outputs := some [("BucketArn".toList,
      ⟨ResourceMapper.getAttNode ("MyS3Bucket".toList) ("Arn".toList), none⟩)] }

/-- C2: the claim is false — resolving `Fn::GetAtt ["MyS3Bucket", "Arn"]`
emits `"${undefined.mys3bucket._arn}"`: the kind-table lookup of the
resource *name* (stringifying to `undefined`) is prepended inside a
`${...}` wrapper, and the attribute `Arn` is rewritten to `_arn`, so the
output is neither the claimed bare `"<sanitizedResource>.<rewrittenAttribute>"`
(`"mys3bucket._arn"`) nor the claimed end-to-end `"mys3bucket.arn"`; the
full `mapTemplate` run on the end-to-end template shows the same output
expression. -/
theorem c2_counterexample :
    ResourceMapper.transformExpression
        (ResourceMapper.getAttNode ("MyS3Bucket".toList) ("Arn".toList))
      = some ("$\x7bundefined.mys3bucket._arn\x7d".toList)
    ∧ ("$\x7bundefined.mys3bucket._arn\x7d".toList) ≠ ("mys3bucket.arn".toList)
    ∧ ("$\x7bundefined.mys3bucket._arn\x7d".toList) ≠ ("mys3bucket._arn".toList)
    ∧ (ResourceMapper.mapTemplate c2Template).map
        (fun p => p.1.outputs.map (fun q => q.2.value))
      = some [("$\x7bundefined.mys3bucket._arn\x7d".toList)] :=
  ⟨rfl, by decide, by decide, rfl⟩

/-- C2 amended: the `!GetAtt` shorthand does split on the first delimiter
(the loader turns `"<r>.<attrPath>"` into the two-element array
`["<r>", "<attrPath>"]` whenever the resource name carries no dot), but
resolution of the two-element node emits
`"${<kindTable[r] | undefined>.<sanitize r>.<camelToSnakeCase attr>}"` —
the kind-table lookup of the resource name is prepended and the attribute
is underscore-cased, never the bare `"<sanitizedResource>.arn"` form. -/
theorem c2_amended (r a : Str) (h : '.' ∉ r) :
    CloudFormationParser.cfnGetAttOfScalar (r ++ '.' :: a)
        = ResourceMapper.getAttNode r a
    ∧ ResourceMapper.transformExpression (ResourceMapper.getAttNode r a)
        = some (ResourceMapper.getAttFragmentOf r a)
    ∧ (ResourceMapper.transformValue (ResourceMapper.getAttNode r a)
        = some (.str (ResourceMapper.getAttFragmentOf r a))) := by
  refine ⟨?_, rfl, rfl⟩
  unfold CloudFormationParser.cfnGetAttOfScalar
  rw [CloudFormationParser.splitOnDot_append r a h]
  show CfnValue.obj (.cons ResourceMapper.getAttKey
      (.arr (.ofList [.str r,
        .str (CloudFormationParser.joinDot (CloudFormationParser.splitOnDot a))]))
      .nil) = ResourceMapper.getAttNode r a
  rw [CloudFormationParser.joinDot_splitOnDot a]
  rfl

/-- C2 amended, witness at the end-to-end attribute reference
`MyS3Bucket.Arn`. -/
theorem c2_amended_witness :
    CloudFormationParser.cfnGetAttOfScalar ("MyS3Bucket".toList ++ '.' :: "Arn".toList)
        = ResourceMapper.getAttNode ("MyS3Bucket".toList) ("Arn".toList)
    ∧ ResourceMapper.transformExpression
        (ResourceMapper.getAttNode ("MyS3Bucket".toList) ("Arn".toList))
      = some (ResourceMapper.getAttFragmentOf ("MyS3Bucket".toList) ("Arn".toList)) :=
  ⟨(c2_amended ("MyS3Bucket".toList) ("Arn".toList) (by decide)).1,
   (c2_amended ("MyS3Bucket".toList) ("Arn".toList) (by decide)).2.1⟩

/-! ## Dependency normalization (claim C3) -/

/-- Projects the `dependencies` field out of a `mapResource` result that
produced an actual resource. -/
def depsOf : Option (Option TerraformResource × List Str) → Option (Option (List Str))
  | some (some tr, _) => some tr.dependencies
  | _ => none

/-- A storage resource with empty properties and the given `DependsOn`. -/
def c3Resource (d : Option DependsOnField) : CfnResource :=
  ⟨"AWS::S3::Bucket".toList, .nil, d⟩

/-- C3: the claim is false — `dependsOn` elements are *not* sanitized:
for the bare identifier `"My-Bucket"` the mapped `dependencies` is
`["My-Bucket"]` verbatim, not `["my_bucket"]`. -/
theorem c3_counterexample :
    depsOf (ResourceMapper.mapResource ("R".toList)
        (c3Resource (some (.single ("My-Bucket".toList)))))
      = some (some ["My-Bucket".toList])
    ∧ ["My-Bucket".toList]
        ≠ [ResourceMapper.sanitizeResourceName ("My-Bucket".toList)] :=
  ⟨rfl, by decide⟩

/-- C3 amended: an absent `dependsOn` stays absent; a *non-empty* bare
identifier `s` normalizes to the one-element sequence `[s]` with the
identifier carried through unsanitized (the empty string, being falsy,
also yields an absent field); a sequence passes through element-wise
unsanitized; hence a non-empty bare identifier and its one-element
sequence produce identical single-element sequences of raw identifiers. -/
theorem c3_amended (n s : Str) (l : List Str) (hs : s ≠ []) :
    depsOf (ResourceMapper.mapResource n (c3Resource none)) = some none
    ∧ depsOf (ResourceMapper.mapResource n (c3Resource (some (.single s))))
        = some (some [s])
    ∧ depsOf (ResourceMapper.mapResource n (c3Resource (some (.multi l))))
        = some (some l)
    ∧ depsOf (ResourceMapper.mapResource n (c3Resource (some (.single s))))
        = depsOf (ResourceMapper.mapResource n (c3Resource (some (.multi [s])))) := by
  have he : s.isEmpty = false := by
    cases s with
    | nil => exact absurd rfl hs
    | cons c cs => rfl
  refine ⟨rfl, ?_, rfl, ?_⟩ <;>
    simp [ResourceMapper.mapResource, c3Resource, ResourceMapper.mapProperties,
      ResourceMapper.transformObj, he, depsOf, ResourceMapper.lookupStr,
      ResourceMapper.resourceTypeMapping]

/-- C3 amended, witness at the concrete name and dependency list. -/
theorem c3_amended_witness :
    ("MyBucket".toList ≠ ([] : Str))
    ∧ depsOf (ResourceMapper.mapResource ("R".toList)
        (c3Resource (some (.single ("MyBucket".toList)))))
      = some (some ["MyBucket".toList]) :=
  ⟨by decide,
   (c3_amended ("R".toList) ("MyBucket".toList) [] (by decide)).2.1⟩

/-! ## Unmapped resource kinds (claim C6) -/

namespace ResourceMapper

/-- Every output value of the list transforms without a thrown error. -/
def outputsOk (outs : List (Str × CfnOutput)) : Bool :=
  outs.all (fun p => (transformExpression p.2.Value).isSome)

theorem mapOutputsList_ok : ∀ (outs : List (Str × CfnOutput))
    (acc : List (Str × TfOutput)), outputsOk outs = true →
    ∃ r, mapOutputsList acc outs = some r
  | [], acc, _ => ⟨acc, rfl⟩
  | (name, output) :: rest, acc, h => by
    simp only [outputsOk, List.all_cons, Bool.and_eq_true] at h
    obtain ⟨h1, h2⟩ := h
    obtain ⟨v, hv⟩ := Option.isSome_iff_exists.mp h1
    rw [show mapOutputsList acc ((name, output) :: rest)
          = (match transformExpression output.Value with
             | none => none
             | some value =>
                 mapOutputsList (insertAssoc acc name ⟨value, output.Description⟩) rest)
        from rfl, hv]
    exact mapOutputsList_ok rest _ h2

end ResourceMapper

/-- C6 counterexample scaffolding: exactly one resource of the unmapped
kind `AWS::EC2::VPC`, plus one output whose `Fn::GetAtt` argument is the
non-iterable number `5` (destructuring it throws a `TypeError`). -/
def c6BadTemplate : CfnTemplate :=
  { Parameters := none
    Resources := [("R".toList, ⟨"AWS::EC2::VPC".toList, .nil, none⟩)]
    Outputs := some [("O".toList,
      ⟨.obj (.cons ResourceMapper.getAttKey (.num 5) .nil), none⟩)] }

/-- C6: the claim, quantified over *every* template with exactly one
resource of an unmapped kind, is false — on a template whose single
resource kind `AWS::EC2::VPC` is absent from the kind table but which also
carries a malformed output, the whole run fails (`none`), returning no
`TargetModel` at all. -/
theorem c6_counterexample :
    ResourceMapper.lookupStr ResourceMapper.resourceTypeMapping
        ("AWS::EC2::VPC".toList) = none
    ∧ c6BadTemplate.Resources.length = 1
    ∧ ResourceMapper.mapTemplate c6BadTemplate = none :=
  ⟨by decide, rfl, rfl⟩

/-- C6 amended: for every template with exactly one resource, of a kind
absent from the kind table, whose outputs (if any) all transform without
error — in particular whenever `Outputs` is absent — `mapTemplate`
succeeds, its `resources` sequence has length 0 (the resource is dropped),
and exactly one diagnostic warning is emitted. -/
theorem c6_amended (params : Option (List (Str × CfnParameter)))
    (outs : Option (List (Str × CfnOutput))) (rname : Str) (res : CfnResource)
    (hunmapped : ResourceMapper.lookupStr ResourceMapper.resourceTypeMapping
        res.rtype = none)
    (houts : ResourceMapper.outputsOk (outs.getD []) = true) :
    ∃ cfg warns,
      ResourceMapper.mapTemplate ⟨params, [(rname, res)], outs⟩ = some (cfg, warns)
      ∧ cfg.resources = [] ∧ warns.length = 1 := by
  obtain ⟨r, hr⟩ := ResourceMapper.mapOutputsList_ok (outs.getD []) [] houts
  refine ⟨⟨[], ResourceMapper.mapVariablesList [] (params.getD []), r⟩,
    [ResourceMapper.warnUnsupported res.rtype], ?_, rfl, rfl⟩
  unfold ResourceMapper.mapTemplate
  rw [show ResourceMapper.mapResourcesList [] [] [(rname, res)]
        = (match ResourceMapper.mapResource rname res with
           | none => none
           | some (some tr, ws) => ResourceMapper.mapResourcesList ([] ++ [tr]) ([] ++ ws) []
           | some (none, ws) => ResourceMapper.mapResourcesList [] ([] ++ ws) [])
      from rfl]
  rw [show ResourceMapper.mapResource rname res
        = (match ResourceMapper.lookupStr ResourceMapper.resourceTypeMapping res.rtype with
           | none => some (none, [ResourceMapper.warnUnsupported res.rtype])
           | some terraformType =>
             match ResourceMapper.mapProperties res.rtype res.Properties with
             | none => none
             | some properties =>
               some (some ⟨terraformType, ResourceMapper.sanitizeResourceName rname,
                 properties,
                 match res.DependsOn with
                 | none => none
                 | some (.single s) => if s.isEmpty then none else some [s]
                 | some (.multi l) => some l⟩, []))
      from rfl, hunmapped]
  dsimp only
  rw [hr]
  rw [show ResourceMapper.mapResourcesList []
        ([] ++ [ResourceMapper.warnUnsupported res.rtype]) []
        = some ([], [ResourceMapper.warnUnsupported res.rtype]) from rfl]

/-- C6 amended, witness at a concrete one-resource template with no
outputs. -/
theorem c6_amended_witness :
    ∃ cfg warns,
      ResourceMapper.mapTemplate
          ⟨none, [("R".toList, ⟨"AWS::EC2::VPC".toList, .nil, none⟩)], none⟩
        = some (cfg, warns)
      ∧ cfg.resources = [] ∧ warns.length = 1 :=
  c6_amended none none ("R".toList) ⟨"AWS::EC2::VPC".toList, .nil, none⟩
    (by decide) (by decide)

/-! ## Intrinsic-free literal trees (claim C4) -/

mutual
/-- No mapping anywhere in the tree carries an intrinsic marker key
(`Ref` or `Fn::GetAtt`). -/
def noIntrinsicV : CfnValue → Bool
  | .arr l => noIntrinsicA l
  | .obj o =>
      !(hasKey o ResourceMapper.refKey || hasKey o ResourceMapper.getAttKey)
        && noIntrinsicO o
  | _ => true
/-- Elementwise `noIntrinsicV` over an array. -/
def noIntrinsicA : CfnArray → Bool
  | .nil => true
  | .cons v rest => noIntrinsicV v && noIntrinsicA rest
/-- `noIntrinsicV` over the values of an object. -/
def noIntrinsicO : CfnObject → Bool
  | .nil => true
  | .cons _ v rest => noIntrinsicV v && noIntrinsicO rest
end

mutual
/-- Every mapping in the tree keeps pairwise-distinct keys after the
camel-to-snake rewrite (so no assignment in the rebuild overwrites). -/
def snakeKeysNodupV : CfnValue → Bool
  | .arr l => snakeKeysNodupA l
  | .obj o =>
      decide (((objKeys o).map ResourceMapper.camelToSnakeCase).Nodup)
        && snakeKeysNodupO o
  | _ => true
/-- Elementwise `snakeKeysNodupV` over an array. -/
def snakeKeysNodupA : CfnArray → Bool
  | .nil => true
  | .cons v rest => snakeKeysNodupV v && snakeKeysNodupA rest
/-- `snakeKeysNodupV` over the values of an object. -/
def snakeKeysNodupO : CfnObject → Bool
  | .nil => true
  | .cons _ v rest => snakeKeysNodupV v && snakeKeysNodupO rest
end

mutual
/-- The structurally isomorphic literal image of a tree: scalars
unchanged, arrays mapped elementwise, mapping keys rewritten to
separated-word casing with values mirrored. -/
def mirrorValue : CfnValue → CfnValue
  | .arr l => .arr (mirrorArr l)
  | .obj o => .obj (mirrorObj o)
  | v => v
/-- Elementwise mirror of an array. -/
def mirrorArr : CfnArray → CfnArray
  | .nil => .nil
  | .cons v rest => .cons (mirrorValue v) (mirrorArr rest)
/-- Entrywise mirror of an object. -/
def mirrorObj : CfnObject → CfnObject
  | .nil => .nil
  | .cons k v rest =>
      .cons (ResourceMapper.camelToSnakeCase k) (mirrorValue v) (mirrorObj rest)
end

theorem objAppend_nil_right : ∀ o : CfnObject, objAppend o .nil = o
  | .nil => rfl
  | .cons k v rest => by rw [show objAppend (.cons k v rest) .nil
      = .cons k v (objAppend rest .nil) from rfl, objAppend_nil_right rest]

theorem objAppend_assoc : ∀ a b c : CfnObject,
    objAppend (objAppend a b) c = objAppend a (objAppend b c)
  | .nil, _, _ => rfl
  | .cons k v rest, b, c => by
    rw [show objAppend (.cons k v rest) b = .cons k v (objAppend rest b) from rfl,
        show objAppend (.cons k v (objAppend rest b)) c
          = .cons k v (objAppend (objAppend rest b) c) from rfl,
        objAppend_assoc rest b c]
    rfl

theorem insertJs_fresh : ∀ (o : CfnObject) (k : Str) (v : CfnValue),
    hasKey o k = false → insertJs o k v = objAppend o (.cons k v .nil)
  | .nil, _, _, _ => rfl
  | .cons k0 v0 rest, k, v, h => by
    simp only [hasKey] at h
    by_cases h0 : k0 = k
    · rw [if_pos h0] at h; exact absurd h (by simp)
    · rw [if_neg h0] at h
      rw [show insertJs (.cons k0 v0 rest) k v
            = if k0 = k then .cons k0 v rest else .cons k0 v0 (insertJs rest k v)
          from rfl, if_neg h0, insertJs_fresh rest k v h]
      rfl

theorem hasKey_objAppend : ∀ (a b : CfnObject) (k : Str),
    hasKey (objAppend a b) k = (hasKey a k || hasKey b k)
  | .nil, _, _ => rfl
  | .cons k0 v0 rest, b, k => by
    rw [show objAppend (.cons k0 v0 rest) b = .cons k0 v0 (objAppend rest b) from rfl]
    simp only [hasKey]
    by_cases h0 : k0 = k
    · simp [h0]
    · simp [h0, hasKey_objAppend rest b k]

theorem hasKey_false_lookup : ∀ (o : CfnObject) (k : Str),
    hasKey o k = false → lookupObj o k = none
  | .nil, _, _ => rfl
  | .cons k0 v0 rest, k, h => by
    simp only [hasKey] at h
    by_cases h0 : k0 = k
    · rw [if_pos h0] at h; exact absurd h (by simp)
    · rw [if_neg h0] at h
      simp only [lookupObj, if_neg h0]
      exact hasKey_false_lookup rest k h

mutual
theorem transformValue_mirror : ∀ (v : CfnValue), noIntrinsicV v = true →
    snakeKeysNodupV v = true →
    ResourceMapper.transformValue v = some (mirrorValue v)
  | .str _, _, _ => rfl
  | .num _, _, _ => rfl
  | .boolean _, _, _ => rfl
  | .null, _, _ => rfl
  | .arr l, h1, h2 => by
    rw [show ResourceMapper.transformValue (.arr l)
          = (ResourceMapper.transformArr l).map CfnValue.arr from rfl,
        transformArr_mirror l (by simpa [noIntrinsicV] using h1)
          (by simpa [snakeKeysNodupV] using h2)]
    rfl
  | .obj o, h1, h2 => by
    simp only [noIntrinsicV, Bool.and_eq_true, Bool.not_eq_true',
      Bool.or_eq_false_iff] at h1
    obtain ⟨⟨href, hgat⟩, ho⟩ := h1
    simp only [snakeKeysNodupV, Bool.and_eq_true, decide_eq_true_eq] at h2
    obtain ⟨hnd, h2o⟩ := h2
    rw [show ResourceMapper.transformValue (.obj o)
          = (match lookupObj o ResourceMapper.refKey with
             | some rv =>
                 some (.str (ResourceMapper.varRefFrag (jsStringOf rv)))
             | none =>
               match lookupObj o ResourceMapper.getAttKey with
               | some gav =>
                   (ResourceMapper.getAttFragment gav).map CfnValue.str
               | none => (ResourceMapper.transformObj .nil o).map CfnValue.obj)
        from rfl,
        hasKey_false_lookup o ResourceMapper.refKey href,
        hasKey_false_lookup o ResourceMapper.getAttKey hgat,
        transformObj_mirror o .nil ho h2o hnd (fun _ _ => rfl)]
    rfl
theorem transformArr_mirror : ∀ (l : CfnArray), noIntrinsicA l = true →
    snakeKeysNodupA l = true →
    ResourceMapper.transformArr l = some (mirrorArr l)
  | .nil, _, _ => rfl
  | .cons v rest, h1, h2 => by
    simp only [noIntrinsicA, Bool.and_eq_true] at h1
    simp only [snakeKeysNodupA, Bool.and_eq_true] at h2
    rw [show ResourceMapper.transformArr (.cons v rest)
          = (match ResourceMapper.transformValue v with
             | none => none
             | some v' =>
               match ResourceMapper.transformArr rest with
               | none => none
               | some rest' => some (.cons v' rest'))
        from rfl,
        transformValue_mirror v h1.1 h2.1, transformArr_mirror rest h1.2 h2.2]
    rfl
theorem transformObj_mirror : ∀ (o acc : CfnObject), noIntrinsicO o = true →
    snakeKeysNodupO o = true →
    ((objKeys o).map ResourceMapper.camelToSnakeCase).Nodup →
    (∀ k ∈ (objKeys o).map ResourceMapper.camelToSnakeCase, hasKey acc k = false) →
    ResourceMapper.transformObj acc o = some (objAppend acc (mirrorObj o))
  | .nil, acc, _, _, _, _ => by
    rw [show ResourceMapper.transformObj acc .nil = some acc from rfl,
        show mirrorObj .nil = .nil from rfl, objAppend_nil_right acc]
  | .cons k v rest, acc, h1, h2, hnd, hfresh => by
    simp only [noIntrinsicO, Bool.and_eq_true] at h1
    simp only [snakeKeysNodupO, Bool.and_eq_true] at h2
    simp only [objKeys, List.map_cons, List.nodup_cons] at hnd
    have hkfresh : hasKey acc (ResourceMapper.camelToSnakeCase k) = false :=
      hfresh _ (by simp [objKeys])
    rw [show ResourceMapper.transformObj acc (.cons k v rest)
          = (match ResourceMapper.transformValue v with
             | none => none
             | some v' => ResourceMapper.transformObj
                 (insertJs acc (ResourceMapper.camelToSnakeCase k) v') rest)
        from rfl,
        transformValue_mirror v h1.1 h2.1]
    dsimp only
    rw [insertJs_fresh acc _ _ hkfresh]
    rw [transformObj_mirror rest
          (objAppend acc (.cons (ResourceMapper.camelToSnakeCase k) (mirrorValue v) .nil))
          h1.2 h2.2 hnd.2 ?_]
    · rw [objAppend_assoc]
      rfl
    · intro k' hk'
      rw [hasKey_objAppend]
      have h1' : hasKey acc k' = false := hfresh k' (by simp [objKeys]; right; simpa using hk')
      have hne : ResourceMapper.camelToSnakeCase k ≠ k' := fun he => hnd.1 (he ▸ hk')
      have h2' : hasKey (.cons (ResourceMapper.camelToSnakeCase k) (mirrorValue v) .nil) k'
          = false := by
        simp only [hasKey, if_neg hne]
      rw [h1', h2']
      rfl
end

theorem mirrorArr_length : ∀ l : CfnArray, arrLength (mirrorArr l) = arrLength l
  | .nil => rfl
  | .cons v rest => by
    rw [show mirrorArr (.cons v rest) = .cons (mirrorValue v) (mirrorArr rest) from rfl]
    simp only [arrLength, mirrorArr_length rest]

theorem mirrorObj_length : ∀ o : CfnObject, objLength (mirrorObj o) = objLength o
  | .nil => rfl
  | .cons k v rest => by
    rw [show mirrorObj (.cons k v rest)
      = .cons (ResourceMapper.camelToSnakeCase k) (mirrorValue v) (mirrorObj rest) from rfl]
    simp only [objLength, mirrorObj_length rest]

/-- Counts the entries of a resolved mapping. -/
def entryCountOf : Option CfnValue → Option Nat
  | some (.obj o) => some (objLength o)
  | _ => none

/-- C4 counterexample scaffolding: an intrinsic-free two-entry mapping
whose rewritten keys collide (`"A"` and `"_a"` both rewrite to `"_a"`). -/
def c4Collide : CfnValue :=
  .obj (.cons ("A".toList) (.num 1) (.cons ("_a".toList) (.num 2) .nil))

/-- C4: the claim is false — on the intrinsic-free mapping
`{"A": 1, "_a": 2}` both keys rewrite to `"_a"`, the second assignment
overwrites the first, and the resolved mapping has 1 entry where the
input has 2, so the result is not structurally isomorphic to the input. -/
theorem c4_counterexample :
    noIntrinsicV c4Collide = true
    ∧ ResourceMapper.transformValue c4Collide
        = some (.obj (.cons ("_a".toList) (.num 2) .nil))
    ∧ entryCountOf (ResourceMapper.transformValue c4Collide) = some 1
    ∧ objLength (.cons ("A".toList) (.num 1) (.cons ("_a".toList) (.num 2) .nil)) = 2 :=
  ⟨by decide, rfl, rfl, rfl⟩

/-- C4 amended: for every intrinsic-free tree whose every mapping keeps
pairwise-distinct keys after the camel-to-snake rewrite, `transformValue`
returns exactly the structural mirror — scalars unchanged, arrays mapped
in order, mapping entries rebuilt in order with rewritten keys — and the
mirror preserves sequence lengths and mapping entry counts. -/
theorem c4_amended :
    (∀ v : CfnValue, noIntrinsicV v = true → snakeKeysNodupV v = true →
      ResourceMapper.transformValue v = some (mirrorValue v))
    ∧ (∀ l : CfnArray, arrLength (mirrorArr l) = arrLength l)
    ∧ (∀ o : CfnObject, objLength (mirrorObj o) = objLength o)
    ∧ (∀ s : Str, mirrorValue (.str s) = .str s)
    ∧ (∀ n : Int, mirrorValue (.num n) = .num n) :=
  ⟨transformValue_mirror, mirrorArr_length, mirrorObj_length,
   fun _ => rfl, fun _ => rfl⟩

/-- C4 witness scaffolding: a small intrinsic-free property tree with a
nested mapping and a sequence. -/
def c4Literal : CfnValue :=
  .obj (.cons ("BucketName".toList) (.str ("x".toList))
    (.cons ("Tags".toList)
      (.arr (.cons (.obj (.cons ("Key".toList) (.str ("k".toList)) .nil)) .nil))
      .nil))

/-- C4 amended, witness at the concrete literal tree. -/
theorem c4_amended_witness :
    noIntrinsicV c4Literal = true ∧ snakeKeysNodupV c4Literal = true
    ∧ ResourceMapper.transformValue c4Literal = some (mirrorValue c4Literal) :=
  ⟨by decide, by decide, c4_amended.1 c4Literal (by decide) (by decide)⟩

/-! ## Scalar-type translation (claims C8 and C9) -/

namespace CdktfGenerator

theorem tt_unrecognized (s : Str)
    (h1 : ("string".toList).isPrefixOf s = false)
    (h2 : ("number".toList).isPrefixOf s = false)
    (h3 : ("bool".toList).isPrefixOf s = false)
    (h4 : ("list".toList).isPrefixOf s = false)
    (h5 : ("map".toList).isPrefixOf s = false) :
    terraformTypeToTypeScript s = "any".toList := by
  unfold terraformTypeToTypeScript
  simp only [h1, h2, h3, h4, h5, Bool.false_eq_true, if_false, dite_false]

theorem tt_any : terraformTypeToTypeScript ("any".toList) = "any".toList :=
  tt_unrecognized _ (by decide) (by decide) (by decide) (by decide) (by decide)

theorem ttFuel_any : ∀ f : Nat, 1 ≤ f → ttFuel f ("any".toList) = some ("any".toList)
  | 0, h => absurd h (by omega)
  | _ + 1, _ => rfl

theorem ttFuel_correct : ∀ (fuel : Nat) (s : Str), s.length < fuel →
    ttFuel fuel s = some (terraformTypeToTypeScript s)
  | 0, _, h => absurd h (by omega)
  | fuel + 1, s, h => by
    have hfuel : s.length ≤ fuel := by omega
    rw [show ttFuel (fuel + 1) s
          = (if ("string".toList).isPrefixOf s then some ("string".toList)
             else if ("number".toList).isPrefixOf s then some ("number".toList)
             else if ("bool".toList).isPrefixOf s then some ("boolean".toList)
             else if ("list".toList).isPrefixOf s then
               (ttFuel fuel (innerOr ("list".toList) s)).map
                 (fun r => r ++ "[]".toList)
             else if ("map".toList).isPrefixOf s then
               (ttFuel fuel (innerOr ("map".toList) s)).map
                 (fun r => "Record<string, ".toList ++ r ++ ">".toList)
             else some ("any".toList)) from rfl]
    rw [terraformTypeToTypeScript.eq_def]
    by_cases h1 : ("string".toList).isPrefixOf s = true
    · rw [if_pos h1, if_pos h1]
    rw [if_neg h1, if_neg h1]
    by_cases h2 : ("number".toList).isPrefixOf s = true
    · rw [if_pos h2, if_pos h2]
    rw [if_neg h2, if_neg h2]
    by_cases h3 : ("bool".toList).isPrefixOf s = true
    · rw [if_pos h3, if_pos h3]
    rw [if_neg h3, if_neg h3]
    by_cases h4 : ("list".toList).isPrefixOf s = true
    · rw [if_pos h4, dif_pos h4]
      have hs4 : 4 ≤ s.length := isPrefixOf_length_le h4
      rcases innerOr_any_or_short ("list".toList) s with hc | hc
      · rw [hc, ttFuel_any fuel (by omega), tt_any]
        rfl
      · have hm : ("list".toList : Str).length = 4 := by decide
        rw [hm] at hc
        rw [ttFuel_correct fuel (innerOr ("list".toList) s) (by omega)]
        rfl
    rw [if_neg h4, dif_neg h4]
    by_cases h5 : ("map".toList).isPrefixOf s = true
    · rw [if_pos h5, dif_pos h5]
      have hs3 : 3 ≤ s.length := isPrefixOf_length_le h5
      rcases innerOr_any_or_short ("map".toList) s with hc | hc
      · rw [hc, ttFuel_any fuel (by omega), tt_any]
        rfl
      · have hm : ("map".toList : Str).length = 3 := by decide
        rw [hm] at hc
        rw [ttFuel_correct fuel (innerOr ("map".toList) s) (by omega)]
        rfl
    rw [if_neg h5, dif_neg h5]

end CdktfGenerator

/-- C8: the scalar-type translation sends `list(string)` to the
string-sequence notation `string[]`, `map(number)` to the keyed numeric
collection `Record<string, number>`, and every input matching none of the
five recognized prefixes to the universal type `any`; the function is a
total Lean function, so it never throws. -/
theorem c8_theorem :
    CdktfGenerator.terraformTypeToTypeScript ("list(string)".toList)
        = "string[]".toList
    ∧ CdktfGenerator.terraformTypeToTypeScript ("map(number)".toList)
        = "Record<string, number>".toList
    ∧ (∀ s : Str, ("string".toList).isPrefixOf s = false →
        ("number".toList).isPrefixOf s = false →
        ("bool".toList).isPrefixOf s = false →
        ("list".toList).isPrefixOf s = false →
        ("map".toList).isPrefixOf s = false →
        CdktfGenerator.terraformTypeToTypeScript s = "any".toList) := by
  refine ⟨?_, ?_, CdktfGenerator.tt_unrecognized⟩
  · have h := CdktfGenerator.ttFuel_correct 13 ("list(string)".toList) (by decide)
    have h2 : CdktfGenerator.ttFuel 13 ("list(string)".toList)
        = some ("string[]".toList) := by decide
    exact Option.some.inj (h.symm.trans h2)
  · have h := CdktfGenerator.ttFuel_correct 12 ("map(number)".toList) (by decide)
    have h2 : CdktfGenerator.ttFuel 12 ("map(number)".toList)
        = some ("Record<string, number>".toList) := by decide
    exact Option.some.inj (h.symm.trans h2)

/-- C8, witness: the unrecognized-input clause applied at `"foo"`. -/
theorem c8_theorem_witness :
    CdktfGenerator.terraformTypeToTypeScript ("foo".toList) = "any".toList :=
  c8_theorem.2.2 ("foo".toList) (by decide) (by decide) (by decide) (by decide)
    (by decide)

/-- C9: the claim is false in its mechanism — on the input `"map"` the
recursing branch is taken (the result is `Record<string, any>`), and the
extracted inner-type string is the fallback `"any"`, whose length equals
that of the enclosing input `"map"` (3 = 3), so the recursive call is not
on a strictly shorter string. -/
theorem c9_counterexample :
    CdktfGenerator.terraformTypeToTypeScript ("map".toList)
        = "Record<string, any>".toList
    ∧ CdktfGenerator.innerOr ("map".toList) ("map".toList) = "any".toList
    ∧ ¬(("any".toList).length < ("map".toList).length) := by
  refine ⟨?_, by decide, by decide⟩
  have h := CdktfGenerator.ttFuel_correct 4 ("map".toList) (by decide)
  have h2 : CdktfGenerator.ttFuel 4 ("map".toList)
      = some ("Record<string, any>".toList) := by decide
  exact Option.some.inj (h.symm.trans h2)

/-- C9 amended: the translation terminates on every input with recursion
depth bounded by the input length — fuel `length + 1` always suffices —
and a *successfully captured* inner type is strictly shorter than its
enclosing input (by at least `marker length + 2`); only the `'any'`
fallback argument can tie the input length (input `"map"`), and it
terminates at once because `any` matches no recursing prefix. -/
theorem c9_amended :
    (∀ s : Str, CdktfGenerator.ttFuel (s.length + 1) s
        = some (CdktfGenerator.terraformTypeToTypeScript s))
    ∧ (∀ s t : Str, CdktfGenerator.extractInner ("list".toList) s = some t →
        t.length + 6 ≤ s.length)
    ∧ (∀ s t : Str, CdktfGenerator.extractInner ("map".toList) s = some t →
        t.length + 5 ≤ s.length) :=
  ⟨fun s => CdktfGenerator.ttFuel_correct (s.length + 1) s (by omega),
   fun s t h => by
     have h1 := CdktfGenerator.extractInner_length _ s t h
     have h2 : ("list".toList : Str).length = 4 := by decide
     rw [h2] at h1
     omega,
   fun s t h => by
     have h1 := CdktfGenerator.extractInner_length _ s t h
     have h2 : ("map".toList : Str).length = 3 := by decide
     rw [h2] at h1
     omega⟩

/-- C9 amended, witness: the fuel bound at `"map"` and the shrink bound at
`"list(string)"`. -/
theorem c9_amended_witness :
    CdktfGenerator.ttFuel (("map".toList).length + 1) ("map".toList)
        = some (CdktfGenerator.terraformTypeToTypeScript ("map".toList))
    ∧ ("string".toList).length + 6 ≤ ("list(string)".toList).length :=
  ⟨c9_amended.1 ("map".toList),
   c9_amended.2.1 ("list(string)".toList) ("string".toList) (by decide)⟩
